import Mathlib

/-!
Shallow embedding of the streaming z-score anomaly detector in src/main.py.

The core is the loop body of z_score_anomaly_detection_optimized (lines 56-79):
a sliding window held in a deque with maxlen window_size, warm-up until the
window is full, then mean / population standard deviation over the window as it
stands before the new value is appended, the strict comparison
abs((value - mean) / std_dev) > threshold guarded by std_dev != 0, and finally
the append.  Finite float values are idealized as real numbers; the IEEE
special values (NaN, signed infinities) that numpy propagates without raising
are modelled separately by the type PVal below.

The visualization layer visualize_data_stream.update (lines 110-132) keeps its
own display buffer and recomputes the same statistics over the last 30 buffered
points; it is embedded by vizData / vizStatsWindow / vizUpdate.
-/

open Classical

/-- Outcome of presenting one value to the detector: during warm-up no verdict
is emitted (Insufficient-Data); once the window is full the value is printed as
an anomaly or as a normal value. -/
inductive Verdict where
  | insufficient
  | normal
  | anomalous
  deriving DecidableEq, Repr

/-- Last n elements of a list, in order: the contents of a deque with maxlen n
after appending the list elementwise, and the Python slice l[-30:] used by the
visualization layer. -/
def lastN {α : Type} (n : ℕ) (l : List α) : List α :=
  l.drop (l.length - n)

/-- Appending with window.append(value) on a collections.deque with maxlen m
(line 53): the deque keeps the last m elements, evicting from the front when full. -/
def dequeAppend {α : Type} (m : ℕ) (w : List α) (v : α) : List α :=
  lastN m (w ++ [v])

/-- The np.mean of a list of finite values (line 64): sum divided by length. -/
noncomputable def npMean (l : List ℝ) : ℝ :=
  l.sum / l.length

/-- Population variance computed inside np.std (ddof = 0): mean of the squared
deviations from the mean. -/
noncomputable def npVar (l : List ℝ) : ℝ :=
  (l.map (fun x => (x - npMean l) ^ 2)).sum / l.length

/-- The np.std of a list of finite values (line 65): square root of the
population variance. -/
noncomputable def npStd (l : List ℝ) : ℝ :=
  Real.sqrt (npVar l)

/-- One iteration of the detector loop body (lines 56-74) on a finite value:
if the window is not yet full, the value is only accumulated (lines 59-61);
otherwise mean and std_dev are taken over the window before the append
(lines 64-65), the value is flagged when std_dev != 0 and the absolute z-score
strictly exceeds the threshold (lines 68-71), and the value is appended last
(line 74).  Returns the verdict and the window after the call. -/
noncomputable def detectStep (window_size : ℕ) (threshold : ℝ)
    (window : List ℝ) (value : ℝ) : Verdict × List ℝ :=
  if window.length < window_size then
    (Verdict.insufficient, dequeAppend window_size window value)
  else
    let mean := npMean window
    let std_dev := npStd window
    if std_dev ≠ 0 ∧ |(value - mean) / std_dev| > threshold then
      (Verdict.anomalous, dequeAppend window_size window value)
    else
      (Verdict.normal, dequeAppend window_size window value)

/-- The detector loop run over a list of incoming values starting from a given
window: the verdicts in arrival order, and the final window. -/
noncomputable def processFrom (window_size : ℕ) (threshold : ℝ)
    (window : List ℝ) : List ℝ → List Verdict × List ℝ
  | [] => ([], window)
  | v :: vs =>
    let r := detectStep window_size threshold window v
    let rest := processFrom window_size threshold r.2 vs
    (r.1 :: rest.1, rest.2)

/-- Run z_score_anomaly_detection_optimized from a fresh (empty) window over a
finite prefix of the stream. -/
noncomputable def runDetector (window_size : ℕ) (threshold : ℝ)
    (values : List ℝ) : List Verdict × List ℝ :=
  processFrom window_size threshold [] values

/-- Detector construction (line 53): window = deque(maxlen=window_size).
Creating a deque with a natural maxlen cannot fail, and the function body
performs no validation of window_size, so construction always succeeds with
the empty window; the Except type records the absence of a raised
configuration error. -/
def mkDetector (window_size : ℕ) : Except Unit (List ℝ) :=
  Except.ok []

/-- Display-buffer update of visualize_data_stream.update (lines 112-116): the
value is appended first, then the oldest point is dropped when the buffer
exceeds the display window size. -/
def vizData (window_size : ℕ) (data : List ℝ) (value : ℝ) : List ℝ :=
  let d := data ++ [value]
  if window_size < d.length then d.drop 1 else d

/-- The 30-point slice data[-30:] over which update computes mean and std_dev
(lines 120-121), taken after the value has been appended to the buffer. -/
def vizStatsWindow (window_size : ℕ) (data : List ℝ) (value : ℝ) : List ℝ :=
  lastN 30 (vizData window_size data value)

/-- Anomaly test of update (lines 119-123): with at least 30 buffered points,
the value is flagged when std_dev != 0 and its absolute z-score against the
last 30 buffered points (the value itself included) exceeds the threshold. -/
def vizFlagged (window_size : ℕ) (threshold : ℝ)
    (data : List ℝ) (value : ℝ) : Prop :=
  30 ≤ (vizData window_size data value).length ∧
  npStd (vizStatsWindow window_size data value) ≠ 0 ∧
  |(value - npMean (vizStatsWindow window_size data value)) /
      npStd (vizStatsWindow window_size data value)| > threshold

/-- One frame of visualize_data_stream.update (lines 110-124): the new buffer,
and the anomaly index list extended with len(data) - 1 when the value is
flagged. -/
noncomputable def vizUpdate (window_size : ℕ) (threshold : ℝ)
    (data : List ℝ) (anomalies : List ℕ) (value : ℝ) : List ℝ × List ℕ :=
  let d := vizData window_size data value
  if vizFlagged window_size threshold data value then
    (d, anomalies ++ [d.length - 1])
  else
    (d, anomalies)

/-- An IEEE-754 double as handled by the Python/numpy arithmetic in the
detector: a finite value (idealized as a real number), a NaN, or a signed
infinity.  numpy propagates these through mean, std and comparisons without
raising. -/
inductive PVal where
  | fin : ℝ → PVal
  | nan : PVal
  | inf : PVal
  | ninf : PVal

/-- IEEE addition (used by the summation inside np.mean). -/
noncomputable def PVal.add : PVal → PVal → PVal
  | nan, _ => nan
  | _, nan => nan
  | inf, ninf => nan
  | ninf, inf => nan
  | inf, _ => inf
  | _, inf => inf
  | ninf, _ => ninf
  | _, ninf => ninf
  | fin a, fin b => fin (a + b)

/-- IEEE subtraction (value - mean, and deviations inside np.std). -/
noncomputable def PVal.sub : PVal → PVal → PVal
  | nan, _ => nan
  | _, nan => nan
  | inf, inf => nan
  | ninf, ninf => nan
  | inf, _ => inf
  | ninf, _ => ninf
  | fin _, inf => ninf
  | fin _, ninf => inf
  | fin a, fin b => fin (a - b)

/-- IEEE multiplication (squared deviations inside np.std). -/
noncomputable def PVal.mul : PVal → PVal → PVal
  | nan, _ => nan
  | _, nan => nan
  | inf, inf => inf
  | inf, ninf => ninf
  | ninf, inf => ninf
  | ninf, ninf => inf
  | inf, fin b => if b = 0 then nan else if 0 < b then inf else ninf
  | fin a, inf => if a = 0 then nan else if 0 < a then inf else ninf
  | ninf, fin b => if b = 0 then nan else if 0 < b then ninf else inf
  | fin a, ninf => if a = 0 then nan else if 0 < a then ninf else inf
  | fin a, fin b => fin (a * b)

/-- IEEE division ((value - mean) / std_dev, and the division by the length
inside np.mean). -/
noncomputable def PVal.div : PVal → PVal → PVal
  | nan, _ => nan
  | _, nan => nan
  | inf, inf => nan
  | inf, ninf => nan
  | ninf, inf => nan
  | ninf, ninf => nan
  | inf, fin b => if 0 ≤ b then inf else ninf
  | ninf, fin b => if 0 ≤ b then ninf else inf
  | fin _, inf => fin 0
  | fin _, ninf => fin 0
  | fin a, fin b =>
    if b = 0 then (if a = 0 then nan else if 0 < a then inf else ninf)
    else fin (a / b)

/-- IEEE absolute value (abs(...) on line 68). -/
noncomputable def PVal.iabs : PVal → PVal
  | nan => nan
  | inf => inf
  | ninf => inf
  | fin a => fin |a|

/-- IEEE square root (inside np.std). -/
noncomputable def PVal.sqrtE : PVal → PVal
  | nan => nan
  | inf => inf
  | ninf => nan
  | fin a => if a < 0 then nan else fin (Real.sqrt a)

/-- IEEE strict comparison x > y: every comparison involving a NaN is false. -/
def PVal.gt : PVal → PVal → Prop
  | nan, _ => False
  | _, nan => False
  | inf, inf => False
  | inf, _ => True
  | _, inf => False
  | ninf, _ => False
  | fin _, ninf => True
  | fin a, fin b => a > b

/-- The Python test std_dev != 0 (line 68): NaN != 0 and inf != 0 are both
true in IEEE comparison semantics. -/
def PVal.neZero : PVal → Prop
  | nan => True
  | inf => True
  | ninf => True
  | fin a => a ≠ 0

/-- Summation of a list of IEEE values (inside np.mean). -/
noncomputable def PVal.sum (l : List PVal) : PVal :=
  l.foldr PVal.add (PVal.fin 0)

/-- The np.mean of a list of IEEE values: sum divided by length. -/
noncomputable def npMeanE (l : List PVal) : PVal :=
  PVal.div (PVal.sum l) (PVal.fin l.length)

/-- Population variance over IEEE values: mean of the squared deviations. -/
noncomputable def npVarE (l : List PVal) : PVal :=
  npMeanE (l.map (fun x => PVal.mul (PVal.sub x (npMeanE l)) (PVal.sub x (npMeanE l))))

/-- The np.std of a list of IEEE values: square root of the population variance. -/
noncomputable def npStdE (l : List PVal) : PVal :=
  PVal.sqrtE (npVarE l)

/-- One iteration of the detector loop body (lines 56-74) over IEEE values.
numpy raises no exception on NaN or infinite inputs, so the try/except of
lines 57 and 76-79 never fires on this path: the guard on line 68 is simply
evaluated under IEEE comparison semantics and the value is appended whatever
it is. -/
noncomputable def detectStepE (window_size : ℕ) (threshold : ℝ)
    (window : List PVal) (value : PVal) : Verdict × List PVal :=
  if window.length < window_size then
    (Verdict.insufficient, dequeAppend window_size window value)
  else
    let mean := npMeanE window
    let std_dev := npStdE window
    if std_dev.neZero ∧
        (PVal.iabs (PVal.div (PVal.sub value mean) std_dev)).gt (PVal.fin threshold) then
      (Verdict.anomalous, dequeAppend window_size window value)
    else
      (Verdict.normal, dequeAppend window_size window value)

/-! Window algebra. -/

lemma lastN_length {α : Type} (n : ℕ) (l : List α) :
    (lastN n l).length = min n l.length := by
  simp only [lastN, List.length_drop]
  omega

lemma lastN_of_le {α : Type} (n : ℕ) (l : List α) (h : l.length ≤ n) :
    lastN n l = l := by
  simp [lastN, Nat.sub_eq_zero_of_le h]

lemma dequeAppend_of_lt {α : Type} (m : ℕ) (w : List α) (v : α)
    (h : w.length < m) : dequeAppend m w v = w ++ [v] := by
  have hle : (w ++ [v]).length ≤ m := by simp; omega
  simp [dequeAppend, lastN_of_le m _ hle]

lemma dequeAppend_length_le {α : Type} (m : ℕ) (w : List α) (v : α) :
    (dequeAppend m w v).length ≤ m := by
  rw [dequeAppend, lastN_length]
  omega

lemma lastN_append_absorb {α : Type} (m : ℕ) (a b : List α) :
    lastN m (lastN m a ++ b) = lastN m (a ++ b) := by
  by_cases h : a.length ≤ m
  · rw [lastN_of_le m a h]
  · push_neg at h
    unfold lastN
    simp only [List.length_append, List.length_drop]
    rw [List.drop_append_eq_append_drop, List.drop_append_eq_append_drop,
      List.drop_drop]
    simp only [List.length_drop]
    congr 1
    · congr 1
      omega
    · congr 1
      omega

/-! Step and run lemmas. -/

lemma detectStep_snd (ws : ℕ) (t : ℝ) (w : List ℝ) (v : ℝ) :
    (detectStep ws t w v).2 = dequeAppend ws w v := by
  unfold detectStep
  by_cases h : w.length < ws
  · rw [if_pos h]
  · rw [if_neg h]
    show (if npStd w ≠ 0 ∧ |(v - npMean w) / npStd w| > t then
        (Verdict.anomalous, dequeAppend ws w v)
      else (Verdict.normal, dequeAppend ws w v)).2 = dequeAppend ws w v
    by_cases hc : npStd w ≠ 0 ∧ |(v - npMean w) / npStd w| > t
    · rw [if_pos hc]
    · rw [if_neg hc]

lemma detectStep_full (ws : ℕ) (t : ℝ) (w : List ℝ) (v : ℝ)
    (h : ¬ w.length < ws) :
    detectStep ws t w v =
      (if npStd w ≠ 0 ∧ |(v - npMean w) / npStd w| > t then Verdict.anomalous
        else Verdict.normal, dequeAppend ws w v) := by
  unfold detectStep
  rw [if_neg h]
  show (if npStd w ≠ 0 ∧ |(v - npMean w) / npStd w| > t then
      (Verdict.anomalous, dequeAppend ws w v)
    else (Verdict.normal, dequeAppend ws w v)) = _
  by_cases hc : npStd w ≠ 0 ∧ |(v - npMean w) / npStd w| > t
  · rw [if_pos hc, if_pos hc]
  · rw [if_neg hc, if_neg hc]

lemma processFrom_snd (ws : ℕ) (t : ℝ) (xs : List ℝ) :
    ∀ w : List ℝ, w.length ≤ ws → (processFrom ws t w xs).2 = lastN ws (w ++ xs) := by
  induction xs with
  | nil =>
    intro w h
    simp only [processFrom, List.append_nil]
    rw [lastN_of_le ws w h]
  | cons v vs ih =>
    intro w h
    simp only [processFrom]
    rw [detectStep_snd, ih (dequeAppend ws w v) (dequeAppend_length_le ws w v)]
    rw [dequeAppend, lastN_append_absorb]
    simp

lemma processFrom_warmup (ws : ℕ) (t : ℝ) (xs : List ℝ) :
    ∀ w : List ℝ, w.length + xs.length ≤ ws →
      processFrom ws t w xs = (xs.map (fun _ => Verdict.insufficient), w ++ xs) := by
  induction xs with
  | nil => intro w h; simp [processFrom]
  | cons v vs ih =>
    intro w h
    simp only [List.length_cons] at h
    have hlt : w.length < ws := by omega
    have hstep : detectStep ws t w v = (Verdict.insufficient, w ++ [v]) := by
      unfold detectStep
      rw [if_pos hlt, dequeAppend_of_lt ws w v hlt]
    simp only [processFrom, hstep]
    rw [ih (w ++ [v]) (by simp; omega)]
    simp

lemma processFrom_append (ws : ℕ) (t : ℝ) (as bs : List ℝ) :
    ∀ w, processFrom ws t w (as ++ bs) =
      ((processFrom ws t w as).1 ++ (processFrom ws t (processFrom ws t w as).2 bs).1,
        (processFrom ws t (processFrom ws t w as).2 bs).2) := by
  induction as with
  | nil => intro w; simp [processFrom]
  | cons a as ih =>
    intro w
    simp only [List.cons_append, processFrom, List.append_eq, ih]

/-! Statistics lemmas. -/

lemma npVar_nonneg (l : List ℝ) : 0 ≤ npVar l := by
  unfold npVar
  apply div_nonneg
  · apply List.sum_nonneg
    intro x hx
    simp only [List.mem_map] at hx
    obtain ⟨y, _, rfl⟩ := hx
    positivity
  · positivity

lemma npStd_sq (l : List ℝ) : npStd l ^ 2 = npVar l :=
  Real.sq_sqrt (npVar_nonneg l)

lemma npStd_pos (l : List ℝ) (h : 0 < npVar l) : 0 < npStd l :=
  Real.sqrt_pos.mpr h

lemma npStd_of_var_zero (l : List ℝ) (h : npVar l = 0) : npStd l = 0 := by
  rw [npStd, h, Real.sqrt_zero]

lemma npMean_replicate (n : ℕ) (a : ℝ) (hn : n ≠ 0) :
    npMean (List.replicate n a) = a := by
  have hn' : (n : ℝ) ≠ 0 := Nat.cast_ne_zero.mpr hn
  simp only [npMean, List.sum_replicate, List.length_replicate, nsmul_eq_mul]
  rw [mul_comm, mul_div_assoc, div_self hn', mul_one]

lemma npVar_replicate (n : ℕ) (a : ℝ) : npVar (List.replicate n a) = 0 := by
  rcases Nat.eq_zero_or_pos n with h | h
  · subst h; simp [npVar]
  · have hm := npMean_replicate n a (by omega)
    simp [npVar, hm, List.map_replicate, List.sum_replicate]

lemma npStd_replicate (n : ℕ) (a : ℝ) : npStd (List.replicate n a) = 0 :=
  npStd_of_var_zero _ (npVar_replicate n a)

lemma zscore_gt_iff (w : List ℝ) (v t : ℝ) (hvar : 0 < npVar w) (ht : 0 ≤ t) :
    |(v - npMean w) / npStd w| > t ↔ (v - npMean w) ^ 2 > t ^ 2 * npVar w := by
  have hs : 0 < npStd w := npStd_pos w hvar
  have hsq : npStd w ^ 2 = npVar w := npStd_sq w
  rw [gt_iff_lt, abs_div, abs_of_pos hs, lt_div_iff₀ hs]
  constructor
  · intro hlt
    have h2 : (t * npStd w) ^ 2 < |v - npMean w| ^ 2 := by
      nlinarith [mul_nonneg ht hs.le, abs_nonneg (v - npMean w)]
    rw [sq_abs] at h2
    nlinarith [h2, hsq]
  · intro hgt
    by_contra hc
    push_neg at hc
    have h2 : |v - npMean w| ^ 2 ≤ (t * npStd w) ^ 2 := by
      nlinarith [abs_nonneg (v - npMean w), mul_nonneg ht hs.le]
    rw [sq_abs] at h2
    nlinarith [h2, hsq]

lemma detect_cond_iff (w : List ℝ) (v t : ℝ) (hvar : 0 < npVar w) (ht : 0 ≤ t) :
    (npStd w ≠ 0 ∧ |(v - npMean w) / npStd w| > t) ↔
      (v - npMean w) ^ 2 > t ^ 2 * npVar w := by
  have hs : 0 < npStd w := npStd_pos w hvar
  rw [zscore_gt_iff w v t hvar ht]
  exact ⟨fun h => h.2, fun h => ⟨ne_of_gt hs, h⟩⟩

/-! Concrete statistics evaluations used by witnesses and counterexamples. -/

lemma npMean_pair02 : npMean [(0:ℝ), 2] = 1 := by
  norm_num [npMean]

lemma npVar_pair02 : npVar [(0:ℝ), 2] = 1 := by
  norm_num [npVar, npMean]

lemma npStd_pair02 : npStd [(0:ℝ), 2] = 1 := by
  rw [npStd, npVar_pair02, Real.sqrt_one]

lemma npMean_quad : npMean [(1:ℝ), 2, 3, 4] = 5 / 2 := by
  norm_num [npMean]

lemma npVar_quad : npVar [(1:ℝ), 2, 3, 4] = 5 / 4 := by
  norm_num [npVar, npMean]

/-! Degenerate runs with window_size = 1. -/

lemma detectStep_singleton (t a v : ℝ) :
    detectStep 1 t [a] v = (Verdict.normal, [v]) := by
  rw [detectStep_full 1 t [a] v (by simp)]
  have hstd : npStd [a] = 0 := by
    rw [← List.replicate_one]
    exact npStd_replicate 1 a
  rw [if_neg (by simp [hstd])]
  simp [dequeAppend, lastN]

lemma processFrom_ws1 (t : ℝ) (vs : List ℝ) :
    ∀ a : ℝ, (processFrom 1 t [a] vs).1 = vs.map (fun _ => Verdict.normal) := by
  induction vs with
  | nil => intro a; simp [processFrom]
  | cons v vs ih =>
    intro a
    simp only [processFrom, detectStep_singleton]
    simp [ih v]

lemma runDetector_ws1 (t x : ℝ) (rest : List ℝ) :
    (runDetector 1 t (x :: rest)).1 =
      Verdict.insufficient :: rest.map (fun _ => Verdict.normal) := by
  unfold runDetector
  have hstep : detectStep 1 t [] x = (Verdict.insufficient, [x]) := by
    unfold detectStep
    rw [if_pos (by simp : ([] : List ℝ).length < 1)]
    rw [dequeAppend_of_lt 1 [] x (by simp)]
    simp
  simp only [processFrom, hstep]
  rw [processFrom_ws1 t rest x]

/-! IEEE value lemmas for the NaN path. -/

lemma PVal.sub_nan_left (x : PVal) : PVal.sub PVal.nan x = PVal.nan := by
  cases x <;> rfl

lemma PVal.div_nan_left (x : PVal) : PVal.div PVal.nan x = PVal.nan := by
  cases x <;> rfl

lemma detectStepE_nan (ws : ℕ) (t : ℝ) (w : List PVal) (h : ¬ w.length < ws) :
    detectStepE ws t w PVal.nan = (Verdict.normal, dequeAppend ws w PVal.nan) := by
  unfold detectStepE
  rw [if_neg h]
  show (if (npStdE w).neZero ∧
      (PVal.iabs (PVal.div (PVal.sub PVal.nan (npMeanE w)) (npStdE w))).gt (PVal.fin t) then
    (Verdict.anomalous, dequeAppend ws w PVal.nan)
  else (Verdict.normal, dequeAppend ws w PVal.nan)) = _
  rw [if_neg ?_]
  intro hc
  rw [PVal.sub_nan_left, PVal.div_nan_left] at hc
  exact hc.2

/-- Claim C5: whenever the full window has standard deviation 0, the incoming
value is classified Normal regardless of its magnitude.  The guard on line 68
short-circuits on std_dev != 0, so no division by zero is reached, and the
step is a total function of the window and the value: the model raises
nothing on any finite input. -/
theorem C5_zero_variance_safety (ws : ℕ) (t : ℝ) (w : List ℝ) (v : ℝ)
    (hfull : ¬ w.length < ws) (hstd : npStd w = 0) :
    (detectStep ws t w v).1 = Verdict.normal := by
  rw [detectStep_full ws t w v hfull]
  simp [hstd]

/-- Witness for C5: a full two-point window of identical values classifies the
value 1000000 as Normal. -/
theorem C5_witness : (detectStep 2 3 [(1:ℝ), 1] 1000000).1 = Verdict.normal :=
  C5_zero_variance_safety 2 3 [(1:ℝ), 1] 1000000 (by simp)
    (by rw [show ([(1:ℝ), 1] : List ℝ) = List.replicate 2 1 from rfl]
        exact npStd_replicate 2 1)

/-- Claim C8: for a full window with positive standard deviation, the value is
classified Anomalous exactly when the absolute z-score strictly exceeds the
threshold, and a z-score exactly equal to the threshold yields Normal. -/
theorem C8_strict_threshold_boundary (ws : ℕ) (t : ℝ) (w : List ℝ) (v : ℝ)
    (hfull : ¬ w.length < ws) (hstd : 0 < npStd w) :
    ((detectStep ws t w v).1 = Verdict.anomalous ↔
      |(v - npMean w) / npStd w| > t) ∧
    (|(v - npMean w) / npStd w| = t → (detectStep ws t w v).1 = Verdict.normal) := by
  have hne : npStd w ≠ 0 := ne_of_gt hstd
  rw [detectStep_full ws t w v hfull]
  by_cases hc : |(v - npMean w) / npStd w| > t
  · rw [if_pos ⟨hne, hc⟩]
    refine ⟨by simpa using hc, ?_⟩
    intro heq
    rw [heq] at hc
    exact absurd hc (lt_irrefl t)
  · rw [if_neg (fun hand => hc hand.2)]
    refine ⟨⟨fun h => absurd h (by simp), fun h => absurd h hc⟩, fun _ => rfl⟩

/-- Witness for C8: window [0, 2] has mean 1 and standard deviation 1, so the
value 5 with z-score 4 > 3 is Anomalous. -/
theorem C8_witness : (detectStep 2 3 [(0:ℝ), 2] 5).1 = Verdict.anomalous := by
  have h := C8_strict_threshold_boundary 2 3 [(0:ℝ), 2] 5 (by simp)
    (by rw [npStd_pair02]; norm_num)
  apply h.1.mpr
  rw [npStd_pair02, npMean_pair02]
  norm_num

/-- Claim C6: after more than window_size calls on finite values (all of which
are accepted), the internal window is exactly the last window_size values in
arrival order. -/
theorem C6_window_sliding (ws : ℕ) (t : ℝ) (xs : List ℝ) (h : ws < xs.length) :
    (runDetector ws t xs).2 = lastN ws xs ∧
    ((runDetector ws t xs).2).length = ws := by
  have hw : (runDetector ws t xs).2 = lastN ws xs := by
    unfold runDetector
    rw [processFrom_snd ws t xs [] (by simp)]
    simp
  refine ⟨hw, ?_⟩
  rw [hw, lastN_length]
  omega

/-- Witness for C6: with window_size 1, after two values the window is the
last value alone. -/
theorem C6_witness :
    (runDetector 1 3 [(5:ℝ), 7]).2 = lastN 1 [(5:ℝ), 7] ∧
    ((runDetector 1 3 [(5:ℝ), 7]).2).length = 1 :=
  C6_window_sliding 1 3 [5, 7] (by norm_num)

/-- Claim C9: after k values the window length is exactly min k window_size,
the length never decreases as further values arrive, and once the window is
full it stays full forever. -/
theorem C9_window_length_law :
    (∀ (ws : ℕ) (t : ℝ) (xs : List ℝ),
        ((runDetector ws t xs).2).length = min xs.length ws) ∧
    (∀ (ws : ℕ) (t : ℝ) (xs ys : List ℝ),
        ((runDetector ws t xs).2).length ≤ ((runDetector ws t (xs ++ ys)).2).length) ∧
    (∀ (ws : ℕ) (t : ℝ) (xs ys : List ℝ),
        ((runDetector ws t xs).2).length = ws →
          ((runDetector ws t (xs ++ ys)).2).length = ws) := by
  have key : ∀ (ws : ℕ) (t : ℝ) (xs : List ℝ),
      ((runDetector ws t xs).2).length = min xs.length ws := by
    intro ws t xs
    unfold runDetector
    rw [processFrom_snd ws t xs [] (by simp), List.nil_append, lastN_length]
    omega
  refine ⟨key, ?_, ?_⟩
  · intro ws t xs ys
    rw [key ws t xs, key ws t (xs ++ ys)]
    simp only [List.length_append]
    omega
  · intro ws t xs ys h
    rw [key ws t xs] at h
    rw [key ws t (xs ++ ys)]
    simp only [List.length_append]
    omega

/-- Witness for C9: a window of size 2 that is full after [1, 2] stays full
after a further value arrives. -/
theorem C9_witness : ((runDetector 2 3 ([(1:ℝ), 2] ++ [3])).2).length = 2 :=
  C9_window_length_law.2.2 2 3 [(1:ℝ), 2] [3]
    (by rw [C9_window_length_law.1 2 3 [(1:ℝ), 2]]; simp)

/-- Claim C10: window_size = 1 is accepted without any error; the first value
is only accumulated, and every subsequent value is classified Normal whatever
its magnitude, because a one-element window always has standard deviation 0. -/
theorem C10_degenerate_window_size_one :
    mkDetector 1 = Except.ok [] ∧
    ∀ (t x : ℝ) (rest : List ℝ),
      (runDetector 1 t (x :: rest)).1 =
        Verdict.insufficient :: rest.map (fun _ => Verdict.normal) :=
  ⟨rfl, fun t x rest => runDetector_ws1 t x rest⟩

/-- Counterexample to claim C2: constructing with window_size = 1 < 2 raises
no configuration error, and the detector goes on to process values (the claim
asserts an error before any value is processed). -/
theorem C2_counterexample :
    mkDetector 1 = Except.ok [] ∧
    (runDetector 1 3 [(5:ℝ), 100]).1 = [Verdict.insufficient, Verdict.normal] :=
  ⟨rfl, by simpa using runDetector_ws1 3 5 [100]⟩

/-- Amended claim C2: construction performs no validation of window_size and
always succeeds with an empty window; with window_size = 1 the first value is
accumulated and the second receives a Normal verdict, so processing is not
prevented. -/
theorem C2_no_construction_error :
    (∀ ws : ℕ, mkDetector ws = Except.ok []) ∧
    ∀ (t x y : ℝ), (runDetector 1 t [x, y]).1 = [Verdict.insufficient, Verdict.normal] := by
  refine ⟨fun ws => rfl, fun t x y => ?_⟩
  simpa using runDetector_ws1 t x [y]

/-- Counterexample to claim C3: a NaN input arriving at a full window is not
rejected: it is classified Normal (every IEEE comparison involving NaN is
false) and it is appended, so the window is not identical before and after
the call. -/
theorem C3_counterexample :
    (detectStepE 2 3 [PVal.fin 0, PVal.fin 1] PVal.nan).1 = Verdict.normal ∧
    (detectStepE 2 3 [PVal.fin 0, PVal.fin 1] PVal.nan).2 ≠ [PVal.fin 0, PVal.fin 1] := by
  have h := detectStepE_nan 2 3 [PVal.fin 0, PVal.fin 1] (by simp)
  rw [h]
  refine ⟨rfl, ?_⟩
  have hw : dequeAppend 2 [PVal.fin 0, PVal.fin 1] PVal.nan
      = [PVal.fin 1, PVal.nan] := by
    simp [dequeAppend, lastN]
  rw [hw]
  intro heq
  have h1 := List.cons.inj heq
  exact PVal.noConfusion (List.cons.inj h1.2).1

/-- Amended claim C3: non-finite inputs are not rejected.  A NaN presented to
a full window is classified Normal under IEEE comparison semantics and is
appended to the window like any other value, changing the window contents and
hence the statistics used for subsequent values. -/
theorem C3_nan_not_rejected (ws : ℕ) (t : ℝ) (w : List PVal)
    (hfull : ¬ w.length < ws) :
    detectStepE ws t w PVal.nan = (Verdict.normal, dequeAppend ws w PVal.nan) :=
  detectStepE_nan ws t w hfull

/-- Witness for the amended C3: the concrete full window [0, 1] with a NaN
input yields Normal and the slid window [1, NaN]. -/
theorem C3_witness :
    detectStepE 2 3 [PVal.fin 0, PVal.fin 1] PVal.nan
      = (Verdict.normal, dequeAppend 2 [PVal.fin 0, PVal.fin 1] PVal.nan) :=
  C3_nan_not_rejected 2 3 [PVal.fin 0, PVal.fin 1] (by simp)

/-- Claim C4: for a fresh detector with window_size = N at least 2, any finite
value sequence of length at least N + 1 produces Insufficient-Data on each of
the first N calls (the values are only accumulated into the window), and the
call numbered N + 1 returns a definite Normal or Anomalous verdict. -/
theorem C4_warmup_boundary (ws : ℕ) (t : ℝ) (xs : List ℝ) (h2 : 2 ≤ ws)
    (hlen : ws + 1 ≤ xs.length) :
    (runDetector ws t xs).1.take ws = List.replicate ws Verdict.insufficient ∧
    ((runDetector ws t xs).1[ws]? = some Verdict.normal ∨
      (runDetector ws t xs).1[ws]? = some Verdict.anomalous) ∧
    (runDetector ws t (xs.take ws)).2 = xs.take ws := by
  have hlena : (xs.take ws).length = ws := by
    rw [List.length_take]
    omega
  have hwarm : processFrom ws t [] (xs.take ws)
      = ((xs.take ws).map (fun _ => Verdict.insufficient), xs.take ws) := by
    have h := processFrom_warmup ws t (xs.take ws) [] (by simp [hlena])
    simpa using h
  obtain ⟨v, bs, hb⟩ : ∃ v bs, xs.drop ws = v :: bs := by
    cases hd : xs.drop ws with
    | nil =>
      exfalso
      have := congrArg List.length hd
      rw [List.length_drop] at this
      simp at this
      omega
    | cons v bs => exact ⟨v, bs, rfl⟩
  have hxs : xs = xs.take ws ++ v :: bs := by
    rw [← hb, List.take_append_drop]
  have hmaplen : ((xs.take ws).map (fun _ => Verdict.insufficient)).length = ws := by
    rw [List.length_map]
    exact hlena
  have hnotlt : ¬ (xs.take ws).length < ws := by
    rw [hlena]
    omega
  refine ⟨?_, ?_, ?_⟩
  · conv_lhs => rw [runDetector, hxs]
    rw [processFrom_append, hwarm]
    show (((xs.take ws).map (fun _ => Verdict.insufficient) ++ _).take ws) = _
    rw [List.take_left' hmaplen, List.map_const', hlena]
  · rw [runDetector, hxs, processFrom_append, hwarm]
    show ((xs.take ws).map (fun _ => Verdict.insufficient) ++
      (processFrom ws t (xs.take ws) (v :: bs)).1)[ws]? = some Verdict.normal ∨ _
    rw [List.getElem?_append_right (le_of_eq hmaplen), hmaplen]
    simp only [Nat.sub_self]
    simp only [processFrom]
    rw [detectStep_full ws t (xs.take ws) v hnotlt]
    by_cases hc : npStd (xs.take ws) ≠ 0 ∧
        |(v - npMean (xs.take ws)) / npStd (xs.take ws)| > t
    · right
      rw [if_pos hc]
      simp
    · left
      rw [if_neg hc]
      simp
  · rw [runDetector, hwarm]

/-- Witness for C4: window_size 2 on [1, 2, 3] gives two Insufficient-Data
results, a definite verdict on the third call, and the window [1, 2] after the
warm-up. -/
theorem C4_witness :
    (runDetector 2 3 [(1:ℝ), 2, 3]).1.take 2 = List.replicate 2 Verdict.insufficient ∧
    ((runDetector 2 3 [(1:ℝ), 2, 3]).1[2]? = some Verdict.normal ∨
      (runDetector 2 3 [(1:ℝ), 2, 3]).1[2]? = some Verdict.anomalous) ∧
    (runDetector 2 3 ([(1:ℝ), 2, 3].take 2)).2 = [(1:ℝ), 2, 3].take 2 :=
  C4_warmup_boundary 2 3 [1, 2, 3] (by norm_num) (by norm_num)

/-- Claim C7: with window_size 4 and threshold 1.5 on [1, 2, 3, 4, 20], the
first four values only accumulate; the fifth is judged against the window
[1, 2, 3, 4] with mean 5/2 and population variance 5/4 (standard deviation
about 1.118), and its z-score of about 15.65 exceeds 1.5, so it is
Anomalous. -/
theorem C7_concrete_scenario :
    npMean [(1:ℝ), 2, 3, 4] = 5 / 2 ∧ npVar [(1:ℝ), 2, 3, 4] = 5 / 4 ∧
    (runDetector 4 1.5 [(1:ℝ), 2, 3, 4, 20]).1 =
      [Verdict.insufficient, Verdict.insufficient, Verdict.insufficient,
        Verdict.insufficient, Verdict.anomalous] := by
  refine ⟨npMean_quad, npVar_quad, ?_⟩
  have hsplit : ([(1:ℝ), 2, 3, 4, 20] : List ℝ) = [(1:ℝ), 2, 3, 4] ++ [20] := rfl
  rw [runDetector, hsplit, processFrom_append]
  have hwarm : processFrom 4 1.5 [] [(1:ℝ), 2, 3, 4]
      = ([Verdict.insufficient, Verdict.insufficient, Verdict.insufficient,
          Verdict.insufficient], [(1:ℝ), 2, 3, 4]) := by
    have h := processFrom_warmup 4 1.5 [(1:ℝ), 2, 3, 4] [] (by simp)
    simpa using h
  rw [hwarm]
  have hcond : npStd [(1:ℝ), 2, 3, 4] ≠ 0 ∧
      |(20 - npMean [(1:ℝ), 2, 3, 4]) / npStd [(1:ℝ), 2, 3, 4]| > 1.5 := by
    apply (detect_cond_iff [(1:ℝ), 2, 3, 4] 20 1.5
      (by rw [npVar_quad]; norm_num) (by norm_num)).mpr
    rw [npVar_quad, npMean_quad]
    norm_num
  have hstep : detectStep 4 1.5 [(1:ℝ), 2, 3, 4] 20
      = (Verdict.anomalous, dequeAppend 4 [(1:ℝ), 2, 3, 4] 20) := by
    rw [detectStep_full 4 1.5 [(1:ℝ), 2, 3, 4] 20 (by simp)]
    rw [if_pos hcond]
  simp only [processFrom, hstep]
  rfl

/-! The visualization path and claim C1. -/

lemma lastN_append_singleton (n : ℕ) (u0 : List ℝ) (v : ℝ) (hn : 1 ≤ n) :
    ∃ u, lastN n (u0 ++ [v]) = u ++ [v] := by
  refine ⟨u0.drop (u0.length + 1 - n), ?_⟩
  unfold lastN
  simp only [List.length_append, List.length_singleton]
  rw [List.drop_append_eq_append_drop]
  have e : u0.length + 1 - n - u0.length = 0 := by omega
  rw [e, List.drop_zero]

/-- Amended claim C1: the core detector observes evaluate-then-absorb: once
the window is full, the verdict is a function of the mean and standard
deviation of the window as it stood before the append, and the value is
appended afterwards.  The visualization layer does not: whenever its
detection branch runs (at least 30 buffered points), the 30-point window it
computes mean and std_dev over ends with the incoming value itself, because
update appends to the buffer before slicing data[-30:]. -/
theorem C1_evaluate_then_absorb :
    (∀ (ws : ℕ) (t : ℝ) (w : List ℝ) (v : ℝ), ¬ w.length < ws →
        (detectStep ws t w v).1 =
          (if npStd w ≠ 0 ∧ |(v - npMean w) / npStd w| > t then Verdict.anomalous
            else Verdict.normal) ∧
        (detectStep ws t w v).2 = dequeAppend ws w v) ∧
    (∀ (ws : ℕ) (data : List ℝ) (v : ℝ), 30 ≤ (vizData ws data v).length →
        ∃ u, vizStatsWindow ws data v = u ++ [v] ∧
          (vizStatsWindow ws data v).length = 30) := by
  constructor
  · intro ws t w v hfull
    rw [detectStep_full ws t w v hfull]
    exact ⟨rfl, rfl⟩
  · intro ws data v h
    have hd : ∃ u0 : List ℝ, vizData ws data v = u0 ++ [v] := by
      by_cases hc : ws < (data ++ [v]).length
      · have hv : vizData ws data v = (data ++ [v]).drop 1 := by
          simp only [vizData]
          rw [if_pos hc]
        rw [hv] at h
        have hdata : 1 ≤ data.length := by
          simp only [List.length_drop, List.length_append, List.length_singleton] at h
          omega
        refine ⟨data.drop 1, ?_⟩
        rw [hv, List.drop_append_eq_append_drop]
        have e : 1 - data.length = 0 := by omega
        rw [e, List.drop_zero]
      · have hv : vizData ws data v = data ++ [v] := by
          simp only [vizData]
          rw [if_neg hc]
        exact ⟨data, hv⟩
    obtain ⟨u0, hu0⟩ := hd
    have hlen : 30 ≤ (u0 ++ [v]).length := by
      rw [← hu0]
      exact h
    obtain ⟨u, hu⟩ := lastN_append_singleton 30 u0 v (by omega)
    refine ⟨u, ?_, ?_⟩
    · rw [vizStatsWindow, hu0, hu]
    · rw [vizStatsWindow, hu0, lastN_length]
      omega

/-- Witness for the amended C1: a concrete full-window core step appends after
classifying, and the visualization stats window for a concrete buffer ends
with the incoming value. -/
theorem C1_witness :
    (detectStep 2 3 [(1:ℝ), 1] 5).2 = dequeAppend 2 [(1:ℝ), 1] 5 ∧
    ∃ u, vizStatsWindow 100 (List.replicate 30 (0:ℝ)) 30 = u ++ [(30:ℝ)] := by
  constructor
  · exact (C1_evaluate_then_absorb.1 2 3 [(1:ℝ), 1] 5 (by simp)).2
  · obtain ⟨u, hu, _⟩ := C1_evaluate_then_absorb.2 100 (List.replicate 30 (0:ℝ)) 30
      (by norm_num [vizData])
    exact ⟨u, hu⟩

/-! Concrete computation of one visualization frame: buffer of thirty zeros,
incoming value 30, threshold 3. -/

lemma viz_data_concrete :
    vizData 100 (List.replicate 30 (0:ℝ)) 30 = List.replicate 30 (0:ℝ) ++ [30] := by
  simp only [vizData]
  rw [if_neg (by norm_num)]

lemma viz_sw_concrete :
    vizStatsWindow 100 (List.replicate 30 (0:ℝ)) 30
      = List.replicate 29 (0:ℝ) ++ [30] := by
  rw [vizStatsWindow, viz_data_concrete, lastN]
  have e : (List.replicate 30 (0:ℝ) ++ [30]).length - 30 = 1 := by simp
  rw [e]
  rw [show List.replicate 30 (0:ℝ) = 0 :: List.replicate 29 (0:ℝ) from rfl]
  simp

lemma npMean_viz_concrete : npMean (List.replicate 29 (0:ℝ) ++ [30]) = 1 := by
  simp only [npMean, List.sum_append, List.sum_replicate, List.length_append,
    List.length_replicate, List.length_singleton, smul_zero]
  norm_num

lemma npVar_viz_concrete : npVar (List.replicate 29 (0:ℝ) ++ [30]) = 29 := by
  simp only [npVar, npMean_viz_concrete, List.map_append, List.map_replicate,
    List.sum_append, List.sum_replicate, List.length_append, List.length_replicate,
    List.length_singleton, List.map_cons, List.map_nil, List.sum_cons, List.sum_nil,
    nsmul_eq_mul]
  norm_num

lemma vizFlagged_concrete : vizFlagged 100 3 (List.replicate 30 (0:ℝ)) 30 := by
  have hvar : (0:ℝ) < npVar (List.replicate 29 (0:ℝ) ++ [30]) := by
    rw [npVar_viz_concrete]
    norm_num
  refine ⟨?_, ?_, ?_⟩
  · rw [viz_data_concrete]
    simp
  · rw [viz_sw_concrete]
    exact ne_of_gt (npStd_pos _ hvar)
  · rw [viz_sw_concrete]
    apply (zscore_gt_iff (List.replicate 29 (0:ℝ) ++ [30]) 30 3 hvar (by norm_num)).mpr
    rw [npVar_viz_concrete, npMean_viz_concrete]
    norm_num

/-- Counterexample to claim C1: the visualization layer does not evaluate the
value against the window as it stood before the append.  With a buffer of
thirty zeros and incoming value 30, update flags the value as an anomaly
(index 30), while classifying 30 against the preceding thirty-zero window —
what the claim says every detection path does — yields Normal by the
zero-variance rule. -/
theorem C1_counterexample :
    (vizUpdate 100 3 (List.replicate 30 (0:ℝ)) [] 30).2 = [30] ∧
    (detectStep 30 3 (List.replicate 30 (0:ℝ)) 30).1 = Verdict.normal := by
  constructor
  · simp only [vizUpdate]
    rw [if_pos vizFlagged_concrete, viz_data_concrete]
    simp
  · rw [detectStep_full 30 3 (List.replicate 30 (0:ℝ)) 30 (by simp)]
    have hns : ¬ (npStd (List.replicate 30 (0:ℝ)) ≠ 0 ∧
        |((30:ℝ) - npMean (List.replicate 30 (0:ℝ))) / npStd (List.replicate 30 (0:ℝ))| > 3) := by
      intro hcond
      exact hcond.1 (npStd_replicate 30 0)
    rw [if_neg hns]
